import Mathlib

/-!
Shallow embedding of `src/main.c` of the t-control firmware (MSP430
temperature display / threshold buzzer).

Modelling conventions:
* `int` / `unsigned int` on the MSP430 target are 16 bits wide; a C
  conversion of a signed value to `unsigned int` is reduction mod 2^16.
* C `/` and `%` on `int` truncate toward zero: they are `Int.tdiv` and
  `Int.tmod`.
* C `>> 1` on an `int` is an arithmetic shift (floor division by 2,
  i.e. `Int.ediv` by 2) and `& 1` extracts the two's-complement low bit
  (`Int.emod` by 2).
* The compile-time configuration of the source is fixed as in the file:
  `READ_VOLTAGE_OR_DEG = 1`, `TEMP_THRESHOLD_TOGGLE = 1`; `BUZZER_LIMIT`
  (5 in the source) is kept as an explicit parameter where a claim
  instantiates it differently.
* Hardware side effects (shift-register clocking, the buzzer, the ADC)
  are reified as data: `write_7seg` returns the sequence of bits clocked
  into the shift register plus the final register-clock latch pulse, and
  one main-loop iteration returns the digit values handed to
  `inject_7seg` together with flags recording whether the ADC was
  sampled and whether `buzz()` was invoked.
-/

namespace TControl

/-- Modulus of `unsigned int` on the 16-bit MSP430 target. -/
def UINT_MOD : Nat := 65536

/-- `#define BUZZER_LIMIT 5` from the source. -/
def BUZZER_LIMIT : Nat := 5

/-- `#define EMPTY_X 10`: index of the all-clear character. -/
def EMPTY_X : Nat := 10

/-- C conversion of a signed `int` value to `unsigned int`: reduction
modulo 2^16 (the result of `Int.emod` is nonnegative, so `toNat` is
lossless). -/
def toUnsigned (x : Int) : Nat := (x % (UINT_MOD : Int)).toNat

/-- The segment-pattern table `const unsigned int index[11]` from the
source: patterns for digits 0–9 followed by the all-clear pattern. -/
def index : List Nat :=
  [0b11111100, -- 0
   0b01100000, -- 1
   0b11011010, -- 2
   0b11110010, -- 3
   0b01100110, -- 4
   0b10110110, -- 5
   0b10111110, -- 6
   0b11100000, -- 7
   0b11111110, -- 8
   0b11110110, -- 9
   0b00000000] -- all-clear

/-- The four digit values `(d_1, d_2, d_3, d_4)` computed by
`write_4digit(number, delay)`: C truncating division/remainder of the
signed `number` by powers of ten, each result converted to
`unsigned int`.  `d_1` is handed to the leftmost display position. -/
def write_4digit_digits (number : Int) : Nat × Nat × Nat × Nat :=
  let d_4 := toUnsigned (Int.tmod number 10)
  let d_3 := toUnsigned (Int.tmod (Int.tdiv number 10) 10)
  let d_2 := toUnsigned (Int.tmod (Int.tdiv number 100) 10)
  let d_1 := toUnsigned (Int.tmod (Int.tdiv number 1000) 10)
  (d_1, d_2, d_3, d_4)

/-- The digit values of `write_4digit` as a list, leftmost first. -/
def write_4digit_digitList (number : Int) : List Nat :=
  let (d_1, d_2, d_3, d_4) := write_4digit_digits number
  [d_1, d_2, d_3, d_4]

/-- One pass of the body of `inject_7seg(d_1, d_2, d_3, d_4, delay)`:
the (segment pattern, digit position) pairs handed to `write_7seg`, in
call order (leftmost position 4 first, rightmost position 1 last).  An
out-of-bounds access `index[d]` is recorded as `none`. -/
def inject_7seg_round (d_1 d_2 d_3 d_4 : Nat) : List (Option Nat × Nat) :=
  [(index[d_1]?, 4), (index[d_2]?, 3), (index[d_3]?, 2), (index[d_4]?, 1)]

/-- `write_4digit(number, delay)`: decompose `number` into four digit
values and hand them to `inject_7seg` (one pass of its body). -/
def write_4digit (number : Int) : List (Option Nat × Nat) :=
  let (d_1, d_2, d_3, d_4) := write_4digit_digits number
  inject_7seg_round d_1 d_2 d_3 d_4

/-- An observable event of `write_7seg`: the level of the serial data
line at one rising edge of the shift clock, or the single register-clock
(latch) pulse at the end. -/
inductive SREvent
  | shiftBit (b : Nat)
  | latch
deriving DecidableEq, Repr

/-- The second loop of `write_7seg`: four iterations emitting the
digit-select nibble.  Each iteration emits `1` exactly when the running
`index` variable equals 1, then decrements it. -/
def write_7seg_selectBits : Nat → Int → List Nat
  | 0, _ => []
  | i + 1, idx => (if idx = 1 then 1 else 0) :: write_7seg_selectBits i (idx - 1)

/-- The third loop of `write_7seg`: `n` iterations emitting
`bit = data & 1` and then shifting `data` right by one (arithmetic
shift, i.e. floor division by 2). -/
def write_7seg_dataBits : Nat → Int → List Nat
  | 0, _ => []
  | i + 1, data => (data % 2).toNat :: write_7seg_dataBits i (data / 2)

/-- `write_7seg(data, index)`: the full event sequence — four zero bits
(first loop), the four digit-select bits (second loop), the eight data
bits least-significant-first (third loop), then one register-clock
pulse. -/
def write_7seg (data : Int) (idx : Int) : List SREvent :=
  ((List.replicate 4 0 ++ write_7seg_selectBits 4 idx
      ++ write_7seg_dataBits 8 data).map SREvent.shiftBit)
    ++ [SREvent.latch]

/-- `reading * VOLTAGE_COEFF` (`#define VOLTAGE_COEFF 2.96`) truncated
to `int`.  The source computes this in IEEE double; we model it as exact
rational scaling by 296/100 followed by C truncation toward zero.  On
the 10-bit ADC range 0..1023 the double evaluation agrees with this
model: the exact product is a multiple of 1/25, the accumulated rounding
error is below 2^-40 mV, and whenever the exact product is an integer
the rounded double is exactly that integer. -/
def voltage_mv (reading : Nat) : Int := Int.tdiv ((reading : Int) * 296) 100

/-- State carried across iterations of the main `for(;;)` loop. -/
structure LoopState where
  buzz_ctr : Nat
  button_ctr : Nat
deriving DecidableEq, Repr

/-- Per-iteration inputs: whether S101 is (momentarily) pressed this
iteration, and the two raw ADC step counts. -/
structure LoopInput where
  buttonPressed : Bool
  sample_primary : Nat -- p1_samples[2], the P1.3 (thermistor) channel
  sample_pot : Nat     -- p1_samples[0], the P1.5 (potentiometer) channel
deriving DecidableEq, Repr

/-- Observable effects of one loop iteration: the digit values handed to
`inject_7seg` (leftmost first), whether `buzz()` ran, and whether an ADC
conversion was started. -/
structure LoopOutput where
  digits : Nat × Nat × Nat × Nat
  buzzed : Bool
  sampled : Bool
deriving DecidableEq, Repr

/-- The button-sense prologue of an iteration: `button_ctr` after the
`if (button == 0x00) button_ctr += 1;` step (`button_ctr` is a 16-bit
`unsigned int`, so the increment wraps). -/
def sensedCount (st : LoopState) (inp : LoopInput) : Nat :=
  if inp.buttonPressed then (st.button_ctr + 1) % UINT_MOD else st.button_ctr

/-- One iteration of the main loop body, with the source's compile-time
configuration (`READ_VOLTAGE_OR_DEG = 1`, `TEMP_THRESHOLD_TOGGLE = 1`)
and the buzzer repeat limit `limit` as a parameter (5 in the source):
button sense; if `button_ctr % 3 == 2` render all-blank and continue
(no sampling); otherwise sample both channels; if `button_ctr % 3 == 1`
render the potentiometer voltage and continue; otherwise run the
threshold/buzzer update and render the primary voltage.  `buzz_ctr` is a
16-bit `unsigned int`, so its increment wraps. -/
def loopStep (limit : Nat) (st : LoopState) (inp : LoopInput) :
    LoopState × LoopOutput :=
  let button_ctr := sensedCount st inp
  if button_ctr % 3 = 2 then
    ({ buzz_ctr := st.buzz_ctr, button_ctr := button_ctr },
     { digits := (EMPTY_X, EMPTY_X, EMPTY_X, EMPTY_X),
       buzzed := false, sampled := false })
  else
    let reading : Int := inp.sample_primary
    let reading_pot : Int := inp.sample_pot
    if button_ctr % 3 = 1 then
      ({ buzz_ctr := st.buzz_ctr, button_ctr := button_ctr },
       { digits := write_4digit_digits (voltage_mv inp.sample_pot),
         buzzed := false, sampled := true })
    else if reading > reading_pot ∧ st.buzz_ctr < limit then
      ({ buzz_ctr := (st.buzz_ctr + 1) % UINT_MOD, button_ctr := button_ctr },
       { digits := write_4digit_digits (voltage_mv inp.sample_primary),
         buzzed := true, sampled := true })
    else if reading > reading_pot then
      ({ buzz_ctr := (st.buzz_ctr + 1) % UINT_MOD, button_ctr := button_ctr },
       { digits := write_4digit_digits (voltage_mv inp.sample_primary),
         buzzed := false, sampled := true })
    else
      ({ buzz_ctr := 0, button_ctr := button_ctr },
       { digits := write_4digit_digits (voltage_mv inp.sample_primary),
         buzzed := false, sampled := true })

/-! Helper lemmas. -/

theorem toUnsigned_ofNat (m : Nat) (h : m < 65536) : toUnsigned (m : Int) = m := by
  simp only [toUnsigned, UINT_MOD]
  omega

theorem toUnsigned_neg_small (r : Nat) (h : r ≤ 9) :
    toUnsigned (-(r : Int)) = if r = 0 then 0 else 65536 - r := by
  simp only [toUnsigned, UINT_MOD]
  split_ifs <;> omega

theorem write_4digit_digits_ofNat (n : Nat) :
    write_4digit_digits (n : Int) =
      (n / 1000 % 10, n / 100 % 10, n / 10 % 10, n % 10) := by
  have h1 : Int.tdiv (n : Int) 10 = ((n / 10 : Nat) : Int) := (Int.ofNat_tdiv n 10).symm
  have h2 : Int.tdiv (n : Int) 100 = ((n / 100 : Nat) : Int) := (Int.ofNat_tdiv n 100).symm
  have h3 : Int.tdiv (n : Int) 1000 = ((n / 1000 : Nat) : Int) := (Int.ofNat_tdiv n 1000).symm
  have h4 : ∀ m : Nat, Int.tmod (m : Int) 10 = ((m % 10 : Nat) : Int) :=
    fun m => (Int.ofNat_tmod m 10).symm
  simp only [write_4digit_digits, h1, h2, h3, h4]
  rw [toUnsigned_ofNat _ (by omega), toUnsigned_ofNat _ (by omega),
    toUnsigned_ofNat _ (by omega), toUnsigned_ofNat _ (by omega)]

theorem neg_tmod (a b : Int) : Int.tmod (-a) b = -(Int.tmod a b) := by
  rw [Int.tmod_def, Int.tmod_def, Int.neg_tdiv]
  ring

theorem write_4digit_digits_neg (m : Nat) :
    write_4digit_digits (-(m : Int)) =
      (toUnsigned (-((m / 1000 % 10 : Nat) : Int)),
       toUnsigned (-((m / 100 % 10 : Nat) : Int)),
       toUnsigned (-((m / 10 % 10 : Nat) : Int)),
       toUnsigned (-((m % 10 : Nat) : Int))) := by
  have h1 : Int.tdiv (-(m : Int)) 10 = -((m / 10 : Nat) : Int) := by
    rw [Int.neg_tdiv]
    exact congrArg Neg.neg (Int.ofNat_tdiv m 10).symm
  have h2 : Int.tdiv (-(m : Int)) 100 = -((m / 100 : Nat) : Int) := by
    rw [Int.neg_tdiv]
    exact congrArg Neg.neg (Int.ofNat_tdiv m 100).symm
  have h3 : Int.tdiv (-(m : Int)) 1000 = -((m / 1000 : Nat) : Int) := by
    rw [Int.neg_tdiv]
    exact congrArg Neg.neg (Int.ofNat_tdiv m 1000).symm
  have h4 : ∀ a : Nat, Int.tmod (-(a : Int)) 10 = -((a % 10 : Nat) : Int) := by
    intro a
    rw [neg_tmod]
    exact congrArg Neg.neg (Int.ofNat_tmod a 10).symm
  simp only [write_4digit_digits, h1, h2, h3, h4]

theorem index_length : index.length = 11 := rfl

theorem index_getElem?_eq_none (p : Nat) (h : 11 ≤ p) : index[p]? = none := by
  apply List.getElem?_eq_none
  rw [index_length]
  omega

theorem index_isSome_getElem? (p : Nat) (h : p < 11) : (index[p]?).isSome := by
  rw [List.getElem?_eq_some_iff.mpr ⟨by rw [index_length]; omega, rfl⟩]
  rfl

/-! Claim theorems. -/

/-- C1 (counterexample): the buzz counter is not bounded by
`BUZZER_LIMIT`.  With the limit instantiated at 2 and the primary
reading (600) exceeding the potentiometer reading (500) on 4 consecutive
normal-mode iterations, the code's counter sequence is 1, 2, 3, 4 — not
the claimed 1, 2, 2, 2 — and from the third iteration on it exceeds the
limit. -/
theorem C1_counterexample :
    let inp : LoopInput := ⟨false, 600, 500⟩
    let s1 := (loopStep 2 ⟨0, 0⟩ inp).1
    let s2 := (loopStep 2 s1 inp).1
    let s3 := (loopStep 2 s2 inp).1
    let s4 := (loopStep 2 s3 inp).1
    (s1.buzz_ctr, s2.buzz_ctr, s3.buzz_ctr, s4.buzz_ctr) = (1, 2, 3, 4) ∧
    (s1.buzz_ctr, s2.buzz_ctr, s3.buzz_ctr, s4.buzz_ctr) ≠ (1, 2, 2, 2) ∧
    2 < s3.buzz_ctr := by decide

/-- C1 (amended): after a normal-mode iteration the buzz counter equals
0 if the primary reading does not exceed the potentiometer reading, and
(previous counter + 1) mod 2^16 — with no clamping at `BUZZER_LIMIT` —
if it does; in particular with limit 2 and 4 consecutive exceeding
iterations the counter sequence is 1, 2, 3, 4. -/
theorem C1_amended_counter_update (limit : Nat) (st : LoopState) (inp : LoopInput)
    (h : sensedCount st inp % 3 = 0) :
    (loopStep limit st inp).1.buzz_ctr =
      if inp.sample_pot < inp.sample_primary then (st.buzz_ctr + 1) % UINT_MOD
      else 0 := by
  have h2 : ¬ sensedCount st inp % 3 = 2 := by omega
  have h1 : ¬ sensedCount st inp % 3 = 1 := by omega
  simp only [loopStep, h1, h2, if_false]
  have hcast : ((inp.sample_pot : Int) < (inp.sample_primary : Int)) ↔
      inp.sample_pot < inp.sample_primary := Int.ofNat_lt
  split_ifs with ha hb <;> simp_all [gt_iff_lt]

/-- C1 witness: with limit 2 and the counter already at the limit, an
exceeding iteration (600 > 500) pushes the counter to 3, past the
limit. -/
theorem C1_amended_counter_update_witness :
    (loopStep 2 ⟨2, 0⟩ ⟨false, 600, 500⟩).1.buzz_ctr =
      if 500 < 600 then (2 + 1) % UINT_MOD else 0 :=
  C1_amended_counter_update 2 ⟨2, 0⟩ ⟨false, 600, 500⟩ (by decide)

/-- C3: whenever the sensed press count is 2 mod 3 (OFF mode), the
iteration renders the digit quadruple (10, 10, 10, 10), samples nothing,
does not buzz, leaves the buzz counter unchanged, and digit value 10
maps to the all-blank segment pattern `0b00000000` at every one of the
4 display positions. -/
theorem C3_off_mode (limit : Nat) (st : LoopState) (inp : LoopInput)
    (h : sensedCount st inp % 3 = 2) :
    loopStep limit st inp =
      ({ buzz_ctr := st.buzz_ctr, button_ctr := sensedCount st inp },
       { digits := (10, 10, 10, 10), buzzed := false, sampled := false }) ∧
    inject_7seg_round 10 10 10 10 =
      [(some 0b00000000, 4), (some 0b00000000, 3),
       (some 0b00000000, 2), (some 0b00000000, 1)] := by
  constructor
  · simp only [loopStep, h, if_true, EMPTY_X]
  · rfl

/-- C3 witness: with press count 5 (5 mod 3 = 2) the OFF-mode behavior
holds at concrete inputs. -/
theorem C3_off_mode_witness :
    loopStep 5 ⟨7, 5⟩ ⟨false, 600, 500⟩ =
      ({ buzz_ctr := 7, button_ctr := sensedCount ⟨7, 5⟩ ⟨false, 600, 500⟩ },
       { digits := (10, 10, 10, 10), buzzed := false, sampled := false }) ∧
    inject_7seg_round 10 10 10 10 =
      [(some 0b00000000, 4), (some 0b00000000, 3),
       (some 0b00000000, 2), (some 0b00000000, 1)] :=
  C3_off_mode 5 ⟨7, 5⟩ ⟨false, 600, 500⟩ (by decide)

/-- C5: in normal mode the buzzer runs exactly when the primary reading
exceeds the potentiometer reading and the buzz counter is strictly below
the limit; when the reading exceeds the threshold but the limit has been
reached, the counter is still incremented and the buzzer stays
silent. -/
theorem C5_buzz_condition (limit : Nat) (st : LoopState) (inp : LoopInput)
    (h : sensedCount st inp % 3 = 0) :
    ((loopStep limit st inp).2.buzzed = true ↔
       inp.sample_pot < inp.sample_primary ∧ st.buzz_ctr < limit) ∧
    (inp.sample_pot < inp.sample_primary → limit ≤ st.buzz_ctr →
       (loopStep limit st inp).2.buzzed = false ∧
       (loopStep limit st inp).1.buzz_ctr = (st.buzz_ctr + 1) % UINT_MOD) := by
  have h2 : ¬ sensedCount st inp % 3 = 2 := by omega
  have h1 : ¬ sensedCount st inp % 3 = 1 := by omega
  simp only [loopStep, h1, h2, if_false]
  have hcast : ((inp.sample_pot : Int) < (inp.sample_primary : Int)) ↔
      inp.sample_pot < inp.sample_primary := Int.ofNat_lt
  split_ifs with ha hb <;> simp_all [gt_iff_lt]

/-- C5 witness: at the limit (counter 5, limit 5) with primary 600
exceeding potentiometer 500, the buzzer stays silent and the counter
still increments. -/
theorem C5_buzz_condition_witness :
    ((loopStep 5 ⟨5, 0⟩ ⟨false, 600, 500⟩).2.buzzed = true ↔ 500 < 600 ∧ 5 < 5) ∧
    (500 < 600 → 5 ≤ 5 →
       (loopStep 5 ⟨5, 0⟩ ⟨false, 600, 500⟩).2.buzzed = false ∧
       (loopStep 5 ⟨5, 0⟩ ⟨false, 600, 500⟩).1.buzz_ctr = (5 + 1) % UINT_MOD) :=
  C5_buzz_condition 5 ⟨5, 0⟩ ⟨false, 600, 500⟩ (by decide)

/-- C7: in potentiometer mode (press count 1 mod 3) the iteration
renders the potentiometer voltage, leaves the buzz counter unchanged and
does not buzz, though the channels are sampled. -/
theorem C7_pot_mode (limit : Nat) (st : LoopState) (inp : LoopInput)
    (h : sensedCount st inp % 3 = 1) :
    (loopStep limit st inp).1.buzz_ctr = st.buzz_ctr ∧
    (loopStep limit st inp).2.buzzed = false ∧
    (loopStep limit st inp).2.digits =
      write_4digit_digits (voltage_mv inp.sample_pot) ∧
    (loopStep limit st inp).2.sampled = true := by
  have h2 : ¬ sensedCount st inp % 3 = 2 := by omega
  simp only [loopStep, h, h2, if_false, if_true]
  exact ⟨rfl, rfl, rfl, rfl⟩

/-- C7 witness: with press count 1 and samples 600/500 the
potentiometer-mode frame conditions hold. -/
theorem C7_pot_mode_witness :
    (loopStep 5 ⟨3, 1⟩ ⟨false, 600, 500⟩).1.buzz_ctr = 3 ∧
    (loopStep 5 ⟨3, 1⟩ ⟨false, 600, 500⟩).2.buzzed = false ∧
    (loopStep 5 ⟨3, 1⟩ ⟨false, 600, 500⟩).2.digits =
      write_4digit_digits (voltage_mv 500) ∧
    (loopStep 5 ⟨3, 1⟩ ⟨false, 600, 500⟩).2.sampled = true :=
  C7_pot_mode 5 ⟨3, 1⟩ ⟨false, 600, 500⟩ (by decide)

/-- C8: a raw sample of 500 steps scaled by 2.96 and truncated yields
1480 millivolts, which decomposes into the digits (1, 4, 8, 0) leftmost
first. -/
theorem C8_scenario :
    voltage_mv 500 = 1480 ∧ write_4digit_digits 1480 = (1, 4, 8, 0) := by
  decide

/-- C2 (counterexample): the digit decomposition is not the |N|-based
one on negative inputs.  At N = -5 the claim predicts the digit values
(0, 0, 0, 5), each in [0,9]; the code computes (0, 0, 0, 65531) — the
negative C remainder -5 converted to `unsigned int`. -/
theorem C2_counterexample :
    write_4digit_digits (-5) = (0, 0, 0, 65531) ∧
    write_4digit_digits (-5) ≠ (0, 0, 0, 5) ∧
    ¬ 65531 ≤ 9 := by decide

/-- C2 (amended): for every nonnegative integer N, `write_4digit`
produces exactly 4 digit values, each in [0,9], equal to
(|N|/1000)%10, (|N|/100)%10, (|N|/10)%10 and |N|%10, handed to the
display leftmost position (4) first. -/
theorem C2_amended_digit_decomposition (N : Int) (h : 0 ≤ N) :
    write_4digit_digits N =
      (N.natAbs / 1000 % 10, N.natAbs / 100 % 10,
       N.natAbs / 10 % 10, N.natAbs % 10) ∧
    N.natAbs / 1000 % 10 ≤ 9 ∧ N.natAbs / 100 % 10 ≤ 9 ∧
    N.natAbs / 10 % 10 ≤ 9 ∧ N.natAbs % 10 ≤ 9 ∧
    write_4digit N =
      [(index[N.natAbs / 1000 % 10]?, 4), (index[N.natAbs / 100 % 10]?, 3),
       (index[N.natAbs / 10 % 10]?, 2), (index[N.natAbs % 10]?, 1)] := by
  obtain ⟨n, rfl⟩ := Int.eq_ofNat_of_zero_le h
  have habs : (n : Int).natAbs = n := Int.natAbs_ofNat n
  have hd := write_4digit_digits_ofNat n
  refine ⟨by rw [habs]; exact hd, ?_, ?_, ?_, ?_, ?_⟩
  · rw [habs]; omega
  · rw [habs]; omega
  · rw [habs]; omega
  · rw [habs]; omega
  · rw [habs]
    simp only [write_4digit, hd, inject_7seg_round]

/-- C2 witness: the amended decomposition at N = 1480 gives the digits
(1, 4, 8, 0). -/
theorem C2_amended_digit_decomposition_witness :
    write_4digit_digits 1480 =
      ((1480 : Int).natAbs / 1000 % 10, (1480 : Int).natAbs / 100 % 10,
       (1480 : Int).natAbs / 10 % 10, (1480 : Int).natAbs % 10) ∧
    (1480 : Int).natAbs / 1000 % 10 ≤ 9 ∧ (1480 : Int).natAbs / 100 % 10 ≤ 9 ∧
    (1480 : Int).natAbs / 10 % 10 ≤ 9 ∧ (1480 : Int).natAbs % 10 ≤ 9 ∧
    write_4digit 1480 =
      [(index[(1480 : Int).natAbs / 1000 % 10]?, 4),
       (index[(1480 : Int).natAbs / 100 % 10]?, 3),
       (index[(1480 : Int).natAbs / 10 % 10]?, 2),
       (index[(1480 : Int).natAbs % 10]?, 1)] :=
  C2_amended_digit_decomposition 1480 (by decide)

/-- C6: a nonnegative reading of more than 4 decimal digits is rendered
as the digits of N mod 10000 (low-order truncation), with no clamping:
the digit quadruple of N coincides with that of N mod 10000. -/
theorem C6_low_order_truncation (N : Int) (h : 10000 ≤ N) :
    write_4digit_digits N = write_4digit_digits (N % 10000) ∧
    0 ≤ N % 10000 ∧ N % 10000 < 10000 := by
  obtain ⟨n, rfl⟩ := Int.eq_ofNat_of_zero_le (by omega : (0:Int) ≤ N)
  have hmod : (n : Int) % 10000 = ((n % 10000 : Nat) : Int) := by
    exact_mod_cast (Int.ofNat_emod n 10000).symm
  refine ⟨?_, by omega, by rw [hmod]; exact_mod_cast Nat.mod_lt n (by omega)⟩
  rw [hmod, write_4digit_digits_ofNat, write_4digit_digits_ofNat]
  refine Prod.ext ?_ (Prod.ext ?_ (Prod.ext ?_ ?_)) <;> simp only <;> omega

/-- C6 witness: N = 12345 renders the digits (2, 3, 4, 5), i.e. those of
12345 mod 10000 = 2345. -/
theorem C6_low_order_truncation_witness :
    write_4digit_digits 12345 = write_4digit_digits ((12345 : Int) % 10000) ∧
    0 ≤ (12345 : Int) % 10000 ∧ (12345 : Int) % 10000 < 10000 :=
  C6_low_order_truncation 12345 (by decide)

/-- C9 (counterexample): the claim that every negative input makes the
table lookup go out of bounds is false: at N = -10000 all four C
remainders are 0, so every digit value is 0 and every lookup into the
11-entry table succeeds (pattern `0b11111100` for the digit 0). -/
theorem C9_counterexample :
    (-10000 : Int) < 0 ∧
    write_4digit_digits (-10000) = (0, 0, 0, 0) ∧
    write_4digit (-10000) =
      [(some 0b11111100, 4), (some 0b11111100, 3),
       (some 0b11111100, 2), (some 0b11111100, 1)] := by decide

/-- C9 (amended): for nonnegative N every digit value lies in [0,9] and
every lookup into the 11-entry table is in bounds; for negative N the
lookup goes out of bounds — some digit value is at least 65527, the
`unsigned int` image of a negative C remainder — exactly when N is not a
multiple of 10000. -/
theorem C9_amended_table_bounds (N : Int) :
    (0 ≤ N → ∀ p ∈ write_4digit_digitList N, p ≤ 9 ∧ (index[p]?).isSome) ∧
    (N < 0 → ¬ (10000 : Int) ∣ N →
      ∃ p ∈ write_4digit_digitList N, 65527 ≤ p ∧ index[p]? = none) := by
  constructor
  · intro h p hp
    obtain ⟨n, rfl⟩ := Int.eq_ofNat_of_zero_le h
    rw [write_4digit_digitList, write_4digit_digits_ofNat] at hp
    simp only [List.mem_cons, List.not_mem_nil, or_false] at hp
    have hp9 : p ≤ 9 := by rcases hp with h | h | h | h <;> omega
    exact ⟨hp9, index_isSome_getElem? p (by omega)⟩
  · intro hneg hdvd
    obtain ⟨m, hm⟩ : ∃ m : Nat, N = -(m : Int) :=
      ⟨N.natAbs, by rw [← Int.natAbs_neg]; omega⟩
    subst hm
    have hm0 : ¬ (10000 ∣ m) := by
      intro ⟨c, hc⟩
      exact hdvd ⟨-(c : Int), by rw [hc]; push_cast; ring⟩
    rw [write_4digit_digitList, write_4digit_digits_neg]
    rw [toUnsigned_neg_small _ (by omega), toUnsigned_neg_small _ (by omega),
      toUnsigned_neg_small _ (by omega), toUnsigned_neg_small _ (by omega)]
    by_cases h4 : m % 10 = 0
    · by_cases h3 : m / 10 % 10 = 0
      · by_cases h2 : m / 100 % 10 = 0
        · by_cases h1 : m / 1000 % 10 = 0
          · exact absurd ⟨m / 10000, by omega⟩ hm0
          · refine ⟨65536 - m / 1000 % 10, ?_, by omega,
              index_getElem?_eq_none _ (by omega)⟩
            simp only [if_neg h1, List.mem_cons]
            tauto
        · refine ⟨65536 - m / 100 % 10, ?_, by omega,
            index_getElem?_eq_none _ (by omega)⟩
          simp only [if_neg h2, List.mem_cons]
          tauto
      · refine ⟨65536 - m / 10 % 10, ?_, by omega,
          index_getElem?_eq_none _ (by omega)⟩
        simp only [if_neg h3, List.mem_cons]
        tauto
    · refine ⟨65536 - m % 10, ?_, by omega,
        index_getElem?_eq_none _ (by omega)⟩
      simp only [if_neg h4, List.mem_cons]
      tauto

/-- C9 witness: at N = 1480 every lookup is in bounds; at N = -5 the
units digit value is 65531 ≥ 65527 and its lookup is out of bounds. -/
theorem C9_amended_table_bounds_witness :
    (∀ p ∈ write_4digit_digitList 1480, p ≤ 9 ∧ (index[p]?).isSome) ∧
    (∃ p ∈ write_4digit_digitList (-5), 65527 ≤ p ∧ index[p]? = none) :=
  ⟨(C9_amended_table_bounds 1480).1 (by decide),
   (C9_amended_table_bounds (-5)).2 (by decide) (by decide)⟩

/-- C4: for a segment pattern byte b and a digit-select position k in
{1,2,3,4}, `write_7seg` clocks out exactly 16 bits: 4 zero bits, then a
4-bit digit-select nibble whose single set bit sits at position k within
the nibble, then the 8 bits of b least-significant-first; afterwards it
pulses the register clock once. -/
theorem C4_write_7seg_protocol (b k : Nat) (hb : b < 256)
    (hk1 : 1 ≤ k) (hk4 : k ≤ 4) :
    write_7seg (b : Int) (k : Int) =
      ((List.replicate 4 0
          ++ [if k = 1 then 1 else 0, if k = 2 then 1 else 0,
              if k = 3 then 1 else 0, if k = 4 then 1 else 0]
          ++ [b % 2, b / 2 % 2, b / 4 % 2, b / 8 % 2,
              b / 16 % 2, b / 32 % 2, b / 64 % 2, b / 128 % 2]).map
        SREvent.shiftBit) ++ [SREvent.latch] ∧
    List.count 1
      [if k = 1 then 1 else 0, if k = 2 then 1 else 0,
       if k = 3 then 1 else 0, if k = 4 then 1 else 0] = 1 := by
  have hdata : write_7seg_dataBits 8 (b : Int) =
      [b % 2, b / 2 % 2, b / 4 % 2, b / 8 % 2,
       b / 16 % 2, b / 32 % 2, b / 64 % 2, b / 128 % 2] := by
    show [((b : Int) % 2).toNat, ((b : Int) / 2 % 2).toNat,
      ((b : Int) / 2 / 2 % 2).toNat, ((b : Int) / 2 / 2 / 2 % 2).toNat,
      ((b : Int) / 2 / 2 / 2 / 2 % 2).toNat,
      ((b : Int) / 2 / 2 / 2 / 2 / 2 % 2).toNat,
      ((b : Int) / 2 / 2 / 2 / 2 / 2 / 2 % 2).toNat,
      ((b : Int) / 2 / 2 / 2 / 2 / 2 / 2 / 2 % 2).toNat] = _
    simp only [List.cons.injEq, and_true]
    refine ⟨?_, ?_, ?_, ?_, ?_, ?_, ?_, ?_⟩ <;> omega
  interval_cases k <;>
    exact ⟨by simp only [write_7seg, hdata]; rfl, by decide⟩

/-- C4 witness: the protocol at the pattern of digit 1 (`0b01100000`)
and position 1. -/
theorem C4_write_7seg_protocol_witness :
    write_7seg ((0b01100000 : Nat) : Int) ((1 : Nat) : Int) =
      ((List.replicate 4 0
          ++ [if (1 : Nat) = 1 then 1 else 0, if (1 : Nat) = 2 then 1 else 0,
              if (1 : Nat) = 3 then 1 else 0, if (1 : Nat) = 4 then 1 else 0]
          ++ [0b01100000 % 2, 0b01100000 / 2 % 2, 0b01100000 / 4 % 2,
              0b01100000 / 8 % 2, 0b01100000 / 16 % 2, 0b01100000 / 32 % 2,
              0b01100000 / 64 % 2, 0b01100000 / 128 % 2]).map
        SREvent.shiftBit) ++ [SREvent.latch] ∧
    List.count 1
      [if (1 : Nat) = 1 then 1 else 0, if (1 : Nat) = 2 then 1 else 0,
       if (1 : Nat) = 3 then 1 else 0, if (1 : Nat) = 4 then 1 else 0] = 1 :=
  C4_write_7seg_protocol 0b01100000 1 (by decide) (by decide) (by decide)

/-- C10: for any digit-select argument outside {1,2,3,4} (of either
sign), `write_7seg` still clocks out 16 bits — the digit-select nibble
being all zeros, so no display position is selected — and still latches
once. -/
theorem C10_write_7seg_no_select (d idx : Int) (h : idx < 1 ∨ 4 < idx) :
    write_7seg d idx =
      ((List.replicate 4 0 ++ List.replicate 4 0
          ++ write_7seg_dataBits 8 d).map SREvent.shiftBit)
        ++ [SREvent.latch] ∧
    (write_7seg_dataBits 8 d).length = 8 := by
  have hsel : write_7seg_selectBits 4 idx =
      [if idx = 1 then 1 else 0, if idx - 1 = 1 then 1 else 0,
       if idx - 1 - 1 = 1 then 1 else 0,
       if idx - 1 - 1 - 1 = 1 then 1 else 0] := rfl
  constructor
  · rw [write_7seg, hsel, if_neg (by omega), if_neg (by omega),
      if_neg (by omega), if_neg (by omega)]
    rfl
  · rfl

/-- C10 witness: at pattern byte 252 and out-of-range position 7 the
select nibble is all zeros and the word is still shifted and latched. -/
theorem C10_write_7seg_no_select_witness :
    write_7seg 252 7 =
      ((List.replicate 4 0 ++ List.replicate 4 0
          ++ write_7seg_dataBits 8 252).map SREvent.shiftBit)
        ++ [SREvent.latch] ∧
    (write_7seg_dataBits 8 252).length = 8 :=
  C10_write_7seg_no_select 252 7 (by decide)

end TControl
